import Mathlib

/-!
Verification of the screening funnel of `main.py`.

The development shallowly embeds the decision core of the program:
`call_with_retry` (resilient fetch layer), `check_stock_criteria`
(the per-candidate funnel), the pool construction and deep-scan loop of
`run_strict_selection`, the novelty detection of `run_task` (step B), and
the history write of `run_task` (step F).  Numeric quantities (prices,
percent changes, volumes, capital flow, market caps) are modelled as
rationals; provider tables are lists; a fetch that exhausts its retries is
`none`; an exception raised while reading a malformed provider frame is
modelled by the `shapeFault`/`flowFault` flags of the input (raising at the
point where the corresponding column is first read).
-/

/-- Pandas `df.tail(n)`: the last `n` rows (all rows when fewer). -/
def tailN {α : Type} (n : ℕ) (l : List α) : List α := l.drop (l.length - n)

/-- Lexicographic code-point comparison of character lists, the order Python
uses for `str < str` / `str > str`. Structural, hence kernel-evaluable. -/
def chListLtB : List Char → List Char → Bool
  | [], [] => false
  | [], _ :: _ => true
  | _ :: _, [] => false
  | c :: cs, d :: ds => (c.toNat < d.toNat : Bool) || (c = d && chListLtB cs ds)

/-- Python string `<` (lexicographic by code point). -/
def strLtB (a b : String) : Bool := chListLtB a.toList b.toList

/-- Python `round` to an integer: round half to even. -/
def pyRoundInt (q : ℚ) : ℤ :=
  let f := ⌊q⌋
  if q - f < 1/2 then f else if 1/2 < q - f then f + 1 else if 2 ∣ f then f else f + 1

/-- Python `round(q, 2)`. -/
def round2 (q : ℚ) : ℚ := (pyRoundInt (q * 100) : ℚ) / 100

/-! ## Resilient fetch layer: `call_with_retry` (main.py lines 43-55)

The wrapped operation is modelled as a map from the attempt index to the
outcome of that invocation: `.ok v` if the call returns `v`, `.error e` if it
raises.  `retryFuel f i fuel` runs the remaining loop iterations
`i, i+1, ...` (`fuel = max_retries - i` of them) and returns the value the
Python function returns together with the number of invocations performed. -/

def retryFuel {α : Type} (f : ℕ → Except String α) (i : ℕ) : ℕ → Option α × ℕ
  | 0 => (none, 0)
  | k + 1 =>
    match f i with
    | .ok v => (some v, 1)
    | .error _ =>
      if k = 0 then (none, 1)
      else ((retryFuel f (i + 1) k).1, (retryFuel f (i + 1) k).2 + 1)

/-- Model of `call_with_retry(func, max_retries)`: result and invocation count. -/
def call_with_retry {α : Type} (f : ℕ → Except String α) (max_retries : ℕ := 3) :
    Option α × ℕ :=
  retryFuel f 0 max_retries

theorem retryFuel_count_le {α : Type} (f : ℕ → Except String α) :
    ∀ fuel i, (retryFuel f i fuel).2 ≤ fuel := by
  intro fuel
  induction fuel with
  | zero => intro i; simp [retryFuel]
  | succ k ih =>
    intro i
    simp only [retryFuel]
    cases f i with
    | ok v => simp
    | error e =>
      by_cases hk : k = 0
      · simp [hk]
      · simpa [hk] using Nat.succ_le_succ (ih (i + 1))

theorem retryFuel_all_fail {α : Type} (f : ℕ → Except String α) :
    ∀ fuel i, (∀ j, j < fuel → ∃ e, f (i + j) = .error e) →
      (retryFuel f i fuel).1 = none := by
  intro fuel
  induction fuel with
  | zero => intro i _; simp [retryFuel]
  | succ k ih =>
    intro i h
    obtain ⟨e, he⟩ := h 0 (Nat.succ_pos k)
    simp only [Nat.add_zero] at he
    simp only [retryFuel, he]
    by_cases hk : k = 0
    · simp [hk]
    · have : (retryFuel f (i + 1) k).1 = none := by
        apply ih
        intro j hj
        obtain ⟨e', he'⟩ := h (j + 1) (Nat.succ_lt_succ hj)
        exact ⟨e', by rwa [← Nat.add_assoc, Nat.add_right_comm i j 1] at he' ⟩
      simp [hk, this]

theorem retryFuel_first_success {α : Type} (f : ℕ → Except String α) :
    ∀ fuel i k v, k < fuel → f (i + k) = .ok v →
      (∀ j, j < k → ∃ e, f (i + j) = .error e) →
      retryFuel f i fuel = (some v, k + 1) := by
  intro fuel
  induction fuel with
  | zero => intro i k v hk; exact absurd hk (Nat.not_lt_zero k)
  | succ m ih =>
    intro i k v hk hok hall
    cases k with
    | zero =>
      simp only [Nat.add_zero] at hok
      simp [retryFuel, hok]
    | succ k' =>
      obtain ⟨e, he⟩ := hall 0 (Nat.succ_pos k')
      simp only [Nat.add_zero] at he
      have hm : m ≠ 0 := by omega
      simp only [retryFuel, he, hm, if_false]
      have hrec : retryFuel f (i + 1) m = (some v, k' + 1) := by
        apply ih (i + 1) k' v (by omega)
        · have h2 : i + 1 + k' = i + (k' + 1) := by omega
          rw [h2]; exact hok
        · intro j hj
          obtain ⟨e', he'⟩ := hall (j + 1) (Nat.succ_lt_succ hj)
          refine ⟨e', ?_⟩
          have h2 : i + 1 + j = i + (j + 1) := by omega
          rw [h2]; exact he'
      simp [hrec]

/-- C3: `call_with_retry` invokes the wrapped operation at most
`max_retries` times; it returns the operation's result on the first attempt
that succeeds (having invoked it exactly `k + 1` times when attempt `k` is
the first success); and if every attempt raises, it returns the explicit
no-data signal `none` instead of raising. -/
theorem C3_call_with_retry {α : Type} (f : ℕ → Except String α) (m : ℕ) :
    (call_with_retry f m).2 ≤ m ∧
    (∀ k v, k < m → f k = .ok v → (∀ j, j < k → ∃ e, f j = .error e) →
      call_with_retry f m = (some v, k + 1)) ∧
    ((∀ j, j < m → ∃ e, f j = .error e) → (call_with_retry f m).1 = none) := by
  refine ⟨retryFuel_count_le f m 0, ?_, ?_⟩
  · intro k v hk hok hall
    exact retryFuel_first_success f m 0 k v hk (by simpa using hok)
      (by intro j hj; simpa using hall j hj)
  · intro h
    exact retryFuel_all_fail f m 0 (by intro j hj; simpa using h j hj)

def retryDemoOnce : ℕ → Except String ℕ :=
  fun i => if i = 0 then .error "timeout" else .ok 42

def retryDemoFail : ℕ → Except String ℕ :=
  fun _ => .error "timeout"

theorem C3_call_with_retry_witness :
    call_with_retry retryDemoOnce 3 = (some 42, 2) ∧
    (call_with_retry retryDemoFail 3).1 = none := by
  constructor
  · exact (C3_call_with_retry retryDemoOnce 3).2.1 1 42 (by decide) rfl
      (fun j hj => ⟨"timeout", by
        have hj0 : j = 0 := by omega
        rw [hj0]; rfl⟩)
  · exact (C3_call_with_retry retryDemoFail 3).2.2 (fun j _ => ⟨"timeout", rfl⟩)

/-! ## The screening funnel: `check_stock_criteria` (main.py lines 58-105)

One daily OHLCV bar of the fetched per-symbol history, with the columns the
function reads: open, close, percent change and traded volume. -/

structure Bar where
  openPrice : ℚ
  closePrice : ℚ
  pctChange : ℚ
  volume : ℚ
deriving DecidableEq, Inhabited, Repr

/-- External data observed while evaluating one candidate.  `hist` is the
value of `call_with_retry(ak.stock_zh_a_hist_df_cf, ...)` (`none` when all
retries failed); `flow` is the per-symbol capital-flow column fetched at
gate D.  `shapeFault` (resp. `flowFault`) model a provider frame whose
expected columns are missing, so that the first column access in the body
(resp. in the gate-D block) raises; those exceptions are caught by the
outer `except` at line 104 (resp. the inner `except` at line 93). -/
structure StockInput where
  hist : Option (List Bar)
  flow : Option (List ℚ)
  shapeFault : Bool := false
  flowFault : Bool := false
deriving DecidableEq, Repr

/-- The dict returned on acceptance (main.py lines 96-103). -/
structure Pick where
  name : String
  symbol : String
  cum_rise : ℚ
  price : ℚ
  dde : ℚ
  mkt_cap : ℚ
deriving DecidableEq, Repr

/-- One constructor per `return None` site of `check_stock_criteria`,
identifying the first check that failed.  The program itself returns a bare
`None` at every one of these sites; this enumeration is instrumentation of
the return points, not data the program computes. -/
inductive RejectReason
  | insufficientData
  | notThreeUp
  | riseTooLarge
  | volumeShrink
  | volumeSpike
  | flowMissing
  | flowNonPositive
  | flowFault
  | shapeFault
deriving DecidableEq, Repr

instance : Fintype RejectReason :=
  ⟨⟨[RejectReason.insufficientData, RejectReason.notThreeUp,
     RejectReason.riseTooLarge, RejectReason.volumeShrink,
     RejectReason.volumeSpike, RejectReason.flowMissing,
     RejectReason.flowNonPositive, RejectReason.flowFault,
     RejectReason.shapeFault], by decide⟩, by intro x; cases x <;> decide⟩

/-- Source `recent = df.tail(4)`; `last_3_days = recent.iloc[-3:]`. -/
def last3Of (df : List Bar) : List Bar := tailN 3 (tailN 4 df)

/-- Source `today = recent.iloc[-1]`. -/
def todayOf (df : List Bar) : Bar := (tailN 4 df).getLastD default

/-- Source `yesterday = recent.iloc[-2]`. -/
def yesterdayOf (df : List Bar) : Bar := (tailN 2 (tailN 4 df)).headD default

/-- Source `cum_rise = last_3_days['涨跌幅'].sum()`. -/
def cumRiseOf (df : List Bar) : ℚ := ((last3Of df).map Bar.pctChange).sum

/-- Body of `check_stock_criteria` with each `return None` labelled by its reason.
The branch structure follows main.py lines 58-105 line by line:
history availability (≥ 5 bars), the A/B/C/D checks in order, then the
accepted dict.  The faithful function is its `Except.toOption` below. -/
def check_stock_criteria_v (symbol name : String) (dde_now : ℚ) (inp : StockInput) :
    Except RejectReason Pick :=
  match inp.hist with
  | none => .error .insufficientData
  | some df =>
    if df.length < 5 then .error .insufficientData
    else if inp.shapeFault then .error .shapeFault
    else if ¬ (∀ b ∈ last3Of df, b.openPrice ≤ b.closePrice ∧ 0 < b.pctChange) then
      .error .notThreeUp
    else if 10 ≤ cumRiseOf df then .error .riseTooLarge
    else if (todayOf df).volume ≤ (yesterdayOf df).volume then .error .volumeShrink
    else if (yesterdayOf df).volume * 3 < (todayOf df).volume then .error .volumeSpike
    else
      match inp.flow with
      | none => .error .flowMissing
      | some fl =>
        if inp.flowFault then .error .flowFault
        else if (tailN 3 fl).sum ≤ 0 then .error .flowNonPositive
        else .ok { name := name, symbol := symbol, cum_rise := round2 (cumRiseOf df),
                   price := (todayOf df).closePrice, dde := round2 dde_now, mkt_cap := 0 }

/-- Model of `check_stock_criteria(symbol, name, dde_now)`: the accepted dict, or
`None` for every rejection and every swallowed exception. -/
def check_stock_criteria (symbol name : String) (dde_now : ℚ) (inp : StockInput) :
    Option Pick :=
  (check_stock_criteria_v symbol name dde_now inp).toOption

/-- Instrumented reason: `some r` when the evaluation hit the `return None`
site labelled `r`, `none` when the candidate was accepted. -/
def check_reason (symbol name : String) (dde_now : ℚ) (inp : StockInput) :
    Option RejectReason :=
  match check_stock_criteria_v symbol name dde_now inp with
  | .error e => some e
  | .ok _ => none

/-! ## Pool construction and deep scan: `run_strict_selection`
(main.py lines 107-190)

One row of `df_merge` (the inner join of the spot snapshot and the
capital-flow ranking on the symbol column), together with the per-symbol
data `check_stock_criteria` will observe for that row. -/

structure MergedRow where
  code : String
  name : String
  flowAmt : Option ℚ
  floatCap : ℚ
  pctChange : ℚ
  totCap : ℚ
  deep : StockInput

/-- Substring containment on character lists, structural and
kernel-evaluable. -/
def chListHasSub : List Char → List Char → Bool
  | [], pat => pat.isEmpty
  | c :: rest, pat => pat.isPrefixOf (c :: rest) || chListHasSub rest pat

/-- Substring containment on strings (Python `in` / pandas `str.contains`
with a plain alternation pattern). -/
def containsSub (s pat : String) : Bool := chListHasSub s.toList pat.toList

/-- Source `df_merge['名称'].str.contains('ST|退')`. -/
def nameExcluded (n : String) : Bool := containsSub n "ST" || containsSub n "退"

/-- The initial mask (main.py lines 149-153): not ST/delisting, non-null
flow figure, positive float market cap. -/
def maskOK (r : MergedRow) : Bool :=
  !(nameExcluded r.name) && r.flowAmt.isSome && decide (0 < r.floatCap)

/-- Source `pool['DDE'] = 主力净流入 / 流通市值 * 100` (main.py line 157). -/
def ddeOf (r : MergedRow) : ℚ := r.flowAmt.getD 0 / r.floatCap * 100

/-- The second filter (main.py lines 160-164): DDE > 0.5 and percent change
in the open interval (0, 8). -/
def poolOf (rows : List MergedRow) : List MergedRow :=
  (rows.filter maskOK).filter fun r =>
    decide (1/2 < ddeOf r) && decide (0 < r.pctChange) && decide (r.pctChange < 8)

/-- Source `pool.sort_values(by='总市值', ascending=True)` (main.py line 167). -/
def sortByTotCap (rows : List MergedRow) : List MergedRow :=
  rows.mergeSort fun a b => decide (a.totCap ≤ b.totCap)

/-- Source `check_list = pool.head(60)` (main.py line 170). -/
def checkListOf (rows : List MergedRow) : List MergedRow :=
  (sortByTotCap (poolOf rows)).take 60

/-- One iteration of the deep-scan loop (main.py lines 174-178):
`check_stock_criteria(row['代码'], row['名称'], row['DDE'])`, then
`res['mkt_cap'] = round(row['总市值'] / 100000000, 2)` on a hit. -/
def scanRow (r : MergedRow) : Option Pick :=
  (check_stock_criteria r.code r.name (ddeOf r) r.deep).map
    fun p => { p with mkt_cap := round2 (r.totCap / 100000000) }

/-- The instrumented reason for a row of the deep scan. -/
def reasonRow (r : MergedRow) : Option RejectReason :=
  check_reason r.code r.name (ddeOf r) r.deep

/-- Model of `run_strict_selection`: the `selected_stocks` list accumulated by the
deep-scan loop, in loop order. -/
def run_strict_selection (rows : List MergedRow) : List Pick :=
  (checkListOf rows).filterMap scanRow

/-- The accepted results paired with the `总市值` of the pool row each one
came from (instrumentation for order-preservation statements). -/
def strictSelectionPairs (rows : List MergedRow) : List (Pick × ℚ) :=
  (checkListOf rows).filterMap fun r => (scanRow r).map fun p => (p, r.totCap)

/-! ## Novelty detection (`run_task` step B, main.py lines 288-300) -/

/-- The `past_set`: union of the history values whose date key is strictly
inside the retention window (`d > cutoff_date`) and is not today's key. -/
def past_set (history : List (String × List String)) (cutoff_date today_str : String) :
    List String :=
  (history.filter fun e => strLtB cutoff_date e.1 && (e.1 != today_str)).flatMap Prod.snd

/-- Source `new_concepts = [n for n, r in top_concepts if n not in past_set]`. -/
def new_concepts (top_concepts : List (String × ℚ)) (past : List String) : List String :=
  top_concepts.filterMap fun nr => if nr.1 ∈ past then none else some nr.1

/-! ## History store write (`run_task` step F, main.py lines 329-332) -/

/-- Python dict assignment `history_data[d] = v`: replace in place when the
key is present, append otherwise. -/
def dict_set (h : List (String × List String)) (k : String) (v : List String) :
    List (String × List String) :=
  if h.any fun e => e.1 == k then h.map fun e => if e.1 == k then (k, v) else e
  else h ++ [(k, v)]

/-- Step F: `if top_concepts: history_data[today_str] = [x[0] for x in
top_concepts]` — the history mapping as persisted after the run. -/
def save_history (h : List (String × List String)) (today_str : String)
    (top_concepts : List (String × ℚ)) : List (String × List String) :=
  if top_concepts.isEmpty then h
  else dict_set h today_str (top_concepts.map Prod.fst)

/-! ## Theorems about the funnel gates -/

/-- Inversion of acceptance: whenever `check_stock_criteria` accepts, every
gate condition of the source was satisfied, in particular the history was
present with at least 5 bars, the trend gate held, the cumulative rise was
below the hard-coded 10, today's volume exceeded yesterday's without
exceeding three times it, and the flow data existed with a positive recent
sum. -/
theorem check_v_ok_inv {symbol name : String} {dde_now : ℚ} {inp : StockInput} {p : Pick}
    (h : check_stock_criteria_v symbol name dde_now inp = .ok p) :
    ∃ df, inp.hist = some df ∧ 5 ≤ df.length ∧ inp.shapeFault = false ∧
      (∀ b ∈ last3Of df, b.openPrice ≤ b.closePrice ∧ 0 < b.pctChange) ∧
      cumRiseOf df < 10 ∧
      (yesterdayOf df).volume < (todayOf df).volume ∧
      (todayOf df).volume ≤ (yesterdayOf df).volume * 3 ∧
      ∃ fl, inp.flow = some fl ∧ inp.flowFault = false ∧ 0 < (tailN 3 fl).sum := by
  unfold check_stock_criteria_v at h
  cases hh : inp.hist with
  | none => rw [hh] at h; exact absurd h (by simp)
  | some df =>
    rw [hh] at h
    simp only [] at h
    refine ⟨df, rfl, ?_⟩
    split at h
    · exact absurd h (by simp)
    · rename_i h5
      split at h
      · exact absurd h (by simp)
      · rename_i hsf
        split at h
        · exact absurd h (by simp)
        · rename_i hup
          split at h
          · exact absurd h (by simp)
          · rename_i hcum
            split at h
            · exact absurd h (by simp)
            · rename_i hshrink
              split at h
              · exact absurd h (by simp)
              · rename_i hspike
                cases hfl : inp.flow with
                | none => rw [hfl] at h; exact absurd h (by simp)
                | some fl =>
                  rw [hfl] at h
                  simp only [] at h
                  split at h
                  · exact absurd h (by simp)
                  · rename_i hff
                    split at h
                    · exact absurd h (by simp)
                    · rename_i hpos
                      refine ⟨by omega, by simpa using hsf, not_not.mp hup, not_le.mp hcum,
                        not_le.mp hshrink, le_of_not_lt hspike, fl, rfl,
                        by simpa using hff, not_le.mp hpos⟩

/-- C2 (amended): a candidate whose fetched history has at least 5 bars and
well-formed columns, whose 3 most recent sessions each have close ≥ open
AND strictly positive daily percent change, whose cumulative rise lies
strictly between 0 and 10, whose today/yesterday volume ratio lies strictly
between 1 and 3, and whose 3-day capital-flow sum is positive, is accepted.
The strictly-positive-percent-change condition is what the code requires on
top of the claim's close ≥ open. -/
theorem C2_amended_acceptance (symbol name : String) (dde_now : ℚ) (inp : StockInput)
    (df : List Bar) (fl : List ℚ)
    (hdf : inp.hist = some df) (h5 : 5 ≤ df.length)
    (hsf : inp.shapeFault = false)
    (hup : ∀ b ∈ last3Of df, b.openPrice ≤ b.closePrice ∧ 0 < b.pctChange)
    (hcum0 : 0 < cumRiseOf df) (hcum : cumRiseOf df < 10)
    (hvy : 0 < (yesterdayOf df).volume)
    (hr1 : 1 < (todayOf df).volume / (yesterdayOf df).volume)
    (hr2 : (todayOf df).volume / (yesterdayOf df).volume < 3)
    (hfl : inp.flow = some fl) (hff : inp.flowFault = false)
    (hpos : 0 < (tailN 3 fl).sum) :
    (check_stock_criteria symbol name dde_now inp).isSome := by
  have hv1 : ¬ ((todayOf df).volume ≤ (yesterdayOf df).volume) := by
    have h := (one_lt_div hvy).mp hr1
    linarith
  have hv2 : ¬ ((yesterdayOf df).volume * 3 < (todayOf df).volume) := by
    have h := (div_lt_iff₀ hvy).mp hr2
    push_neg
    linarith
  unfold check_stock_criteria check_stock_criteria_v
  rw [hdf]
  simp only [hsf, hff, Bool.false_eq_true, if_false]
  rw [if_neg (by omega)]
  rw [if_neg (not_not_intro hup)]
  rw [if_neg (not_le.mpr hcum)]
  rw [if_neg hv1]
  rw [if_neg hv2]
  rw [hfl]
  simp only [if_neg (not_le.mpr hpos)]
  rfl

/-- Candidate history refuting C2 as stated: the third-from-last session is
a gap-down doji (close 98 ≥ open 97, but daily percent change −2). -/
def gapBars : List Bar :=
  [⟨100, 100, 1, 100⟩, ⟨100, 100, 1, 100⟩, ⟨97, 98, -2, 90⟩,
   ⟨98, 101, 3, 100⟩, ⟨101, 105, 4, 150⟩]

def gapInput : StockInput := { hist := some gapBars, flow := some [5, 5, 5] }

/-- C2 counterexample: a candidate satisfying every hypothesis of the claim
as stated — ≥ 5 bars, closes ≥ opens on the last 3 sessions, cumulative
rise 5 strictly inside (0, 10), volume ratio 1.5 strictly inside (1, 3),
positive 3-day flow — that `check_stock_criteria` nevertheless rejects,
because the code additionally requires each session's percent change to be
strictly positive. -/
theorem C2_counterexample :
    (5 ≤ gapBars.length
      ∧ (∀ b ∈ last3Of gapBars, b.openPrice ≤ b.closePrice)
      ∧ 0 < cumRiseOf gapBars ∧ cumRiseOf gapBars < 10
      ∧ 0 < (yesterdayOf gapBars).volume
      ∧ 1 < (todayOf gapBars).volume / (yesterdayOf gapBars).volume
      ∧ (todayOf gapBars).volume / (yesterdayOf gapBars).volume < 3
      ∧ gapInput.flow = some [5, 5, 5] ∧ 0 < (tailN 3 [(5:ℚ), 5, 5]).sum)
    ∧ check_stock_criteria "600000" "demo" 0 gapInput = none := by
  constructor
  · refine ⟨by decide, by decide, ?_, ?_, by decide, ?_, ?_, rfl, ?_⟩
    · norm_num [cumRiseOf, last3Of, tailN, gapBars]
    · norm_num [cumRiseOf, last3Of, tailN, gapBars]
    · norm_num [todayOf, yesterdayOf, tailN, gapBars]
    · norm_num [todayOf, yesterdayOf, tailN, gapBars]
    · norm_num [tailN]
  · unfold check_stock_criteria check_stock_criteria_v
    norm_num [gapInput, gapBars, last3Of, tailN]
    rfl

def okBars : List Bar :=
  [⟨100, 100, 1, 100⟩, ⟨100, 100, 1, 100⟩, ⟨97, 99, 2, 90⟩,
   ⟨99, 101, 3, 100⟩, ⟨101, 105, 4, 150⟩]

def okInput : StockInput := { hist := some okBars, flow := some [5, 5, 5] }

theorem okBars_cum : 0 < cumRiseOf okBars ∧ cumRiseOf okBars < 10 := by
  norm_num [cumRiseOf, last3Of, tailN, okBars]

theorem okBars_ratio :
    1 < (todayOf okBars).volume / (yesterdayOf okBars).volume ∧
    (todayOf okBars).volume / (yesterdayOf okBars).volume < 3 := by
  norm_num [todayOf, yesterdayOf, tailN, okBars]

theorem okBars_flow : 0 < (tailN 3 [(5:ℚ), 5, 5]).sum := by
  norm_num [tailN]

theorem C2_amended_acceptance_witness :
    (check_stock_criteria "600000" "demo" 0 okInput).isSome := by
  exact C2_amended_acceptance "600000" "demo" 0 okInput okBars [5, 5, 5] rfl (by decide)
    rfl (by decide) okBars_cum.1 okBars_cum.2 (by decide) okBars_ratio.1 okBars_ratio.2
    rfl rfl okBars_flow

/-- C7 (amended): the magnitude bound is the hard-coded literal 10 of
main.py line 76, not a configuration parameter: whenever the fetched
history is present with at least 5 bars and its 3-day cumulative rise is at
or above 10, the candidate is rejected — there is no bound argument that
could be set to (0, 15) to let a 12% riser pass. -/
theorem C7_amended_hardcoded_bound (symbol name : String) (dde_now : ℚ) (inp : StockInput)
    (df : List Bar) (hdf : inp.hist = some df) (h5 : 5 ≤ df.length)
    (hcum : 10 ≤ cumRiseOf df) :
    check_stock_criteria symbol name dde_now inp = none := by
  unfold check_stock_criteria
  cases hv : check_stock_criteria_v symbol name dde_now inp with
  | error e => rfl
  | ok p =>
    obtain ⟨df2, hdf2, -, -, -, hlt, -⟩ := check_v_ok_inv hv
    rw [hdf] at hdf2
    cases hdf2
    exact absurd hcum (not_le.mpr hlt)

/-- Candidate with three up-sessions and cumulative rise 3 + 4 + 5 = 12. -/
def surgeBars : List Bar :=
  [⟨100, 100, 1, 100⟩, ⟨100, 100, 1, 100⟩, ⟨97, 100, 3, 90⟩,
   ⟨100, 104, 4, 100⟩, ⟨104, 109, 5, 150⟩]

def surgeInput : StockInput := { hist := some surgeBars, flow := some [5, 5, 5] }

theorem surgeBars_cum : cumRiseOf surgeBars = 12 := by
  norm_num [cumRiseOf, last3Of, tailN, surgeBars]

/-- C7 counterexample: a candidate with 3 up-sessions, cumulative rise
exactly 12, healthy volume ratio and positive flow is rejected at the
magnitude check by `check_stock_criteria`, which takes no bound parameter;
so no configuration (0, 15) exists under which such a candidate passes the
gate, contrary to the claim. -/
theorem C7_counterexample :
    ((∀ b ∈ last3Of surgeBars, b.openPrice ≤ b.closePrice ∧ 0 < b.pctChange)
      ∧ cumRiseOf surgeBars = 12
      ∧ 1 < (todayOf surgeBars).volume / (yesterdayOf surgeBars).volume
      ∧ (todayOf surgeBars).volume / (yesterdayOf surgeBars).volume < 3
      ∧ 0 < (tailN 3 [(5:ℚ), 5, 5]).sum)
    ∧ check_reason "600000" "demo" 0 surgeInput = some RejectReason.riseTooLarge
    ∧ check_stock_criteria "600000" "demo" 0 surgeInput = none := by
  refine ⟨⟨by decide, surgeBars_cum, ?_, ?_, by norm_num [tailN]⟩, ?_, ?_⟩
  · norm_num [todayOf, yesterdayOf, tailN, surgeBars]
  · norm_num [todayOf, yesterdayOf, tailN, surgeBars]
  · unfold check_reason check_stock_criteria_v
    norm_num [surgeInput, surgeBars, last3Of, tailN, cumRiseOf]
  · unfold check_stock_criteria check_stock_criteria_v
    norm_num [surgeInput, surgeBars, last3Of, tailN, cumRiseOf]
    rfl

theorem surgeBars_cum_ge : 10 ≤ cumRiseOf surgeBars := by
  rw [surgeBars_cum]; norm_num

theorem C7_amended_hardcoded_bound_witness :
    check_stock_criteria "600000" "demo" 0 surgeInput = none := by
  exact C7_amended_hardcoded_bound "600000" "demo" 0 surgeInput surgeBars rfl (by decide)
    surgeBars_cum_ge

/-- C4 (amended): a candidate whose prior-day volume is exactly zero is
always rejected, and no fault is raised — the code compares volumes
(`vol_today <= vol_yest`, `vol_today > vol_yest * 3.0`) without ever
dividing, so no divide-by-zero can occur; but the rejection goes through
the generic shrinkage/ceiling comparisons of the volume gate, there is no
dedicated prior-day-halt reason. -/
theorem C4_amended_zero_prior_volume (symbol name : String) (dde_now : ℚ) (inp : StockInput)
    (df : List Bar) (hdf : inp.hist = some df) (h5 : 5 ≤ df.length)
    (hzero : (yesterdayOf df).volume = 0) :
    check_stock_criteria symbol name dde_now inp = none := by
  unfold check_stock_criteria
  cases hv : check_stock_criteria_v symbol name dde_now inp with
  | error e => rfl
  | ok p =>
    obtain ⟨df2, hdf2, -, -, -, -, hgt, hle, -⟩ := check_v_ok_inv hv
    rw [hdf] at hdf2
    cases hdf2
    rw [hzero] at hgt hle
    nlinarith [hgt, hle]

/-- Zero prior-day volume (suspended yesterday), positive volume today. -/
def haltBars : List Bar :=
  [⟨100, 100, 1, 100⟩, ⟨100, 100, 1, 100⟩, ⟨97, 99, 2, 90⟩,
   ⟨99, 101, 3, 0⟩, ⟨101, 105, 4, 100⟩]

def haltInput : StockInput := { hist := some haltBars, flow := some [5, 5, 5] }

/-- Ordinary 10-times volume surge with a nonzero prior-day volume. -/
def spikeBars : List Bar :=
  [⟨100, 100, 1, 100⟩, ⟨100, 100, 1, 100⟩, ⟨97, 99, 2, 90⟩,
   ⟨99, 101, 3, 10⟩, ⟨101, 105, 4, 100⟩]

def spikeInput : StockInput := { hist := some spikeBars, flow := some [5, 5, 5] }

/-- C4 counterexample: the zero-prior-volume candidate is rejected at
exactly the same return site (the volume-ceiling comparison) as an
ordinary over-3x volume spike with nonzero prior volume, so the code has no
dedicated prior-day-halt reason that the halt case receives. -/
theorem C4_counterexample :
    (yesterdayOf haltBars).volume = 0
    ∧ (yesterdayOf spikeBars).volume ≠ 0
    ∧ check_reason "600000" "demo" 0 haltInput = some RejectReason.volumeSpike
    ∧ check_reason "600000" "demo" 0 spikeInput = some RejectReason.volumeSpike
    ∧ check_stock_criteria "600000" "demo" 0 haltInput = none := by
  refine ⟨by decide, by decide, ?_, ?_, ?_⟩
  · unfold check_reason check_stock_criteria_v
    norm_num [haltInput, haltBars, last3Of, tailN, cumRiseOf, todayOf, yesterdayOf]
  · unfold check_reason check_stock_criteria_v
    norm_num [spikeInput, spikeBars, last3Of, tailN, cumRiseOf, todayOf, yesterdayOf]
  · unfold check_stock_criteria check_stock_criteria_v
    norm_num [haltInput, haltBars, last3Of, tailN, cumRiseOf, todayOf, yesterdayOf]
    rfl

theorem C4_amended_zero_prior_volume_witness :
    check_stock_criteria "600000" "demo" 0 haltInput = none := by
  exact C4_amended_zero_prior_volume "600000" "demo" 0 haltInput haltBars rfl (by decide)
    (by decide)

/-- C8 (amended): an exception raised inside the body of
`check_stock_criteria` (modelled by `shapeFault`) never propagates — the
outer handler turns it into the same undifferentiated `None` outcome that
every rule-based rejection produces; no dedicated internal-error reason or
separate count exists in the code. -/
theorem C8_amended_fault_swallowed (symbol name : String) (dde_now : ℚ) (inp : StockInput)
    (hsf : inp.shapeFault = true) :
    check_stock_criteria symbol name dde_now inp = none := by
  unfold check_stock_criteria check_stock_criteria_v
  cases hdf : inp.hist with
  | none => rfl
  | some df =>
    by_cases h5 : df.length < 5
    · simp only [if_pos h5]
      rfl
    · simp only [if_neg h5, if_pos hsf]
      rfl

/-- Well-formed history but a malformed frame: the body raises. -/
def c8FaultBars : List Bar :=
  [⟨100, 100, 1, 100⟩, ⟨100, 100, 1, 100⟩, ⟨97, 99, 2, 90⟩,
   ⟨99, 101, 3, 100⟩, ⟨101, 105, 4, 150⟩]

def c8FaultInput : StockInput :=
  { hist := some c8FaultBars, flow := some [5, 5, 5], shapeFault := true }

/-- Red candle on the third-from-last session: an ordinary rule rejection. -/
def c8RuleBars : List Bar :=
  [⟨100, 100, 1, 100⟩, ⟨100, 100, 1, 100⟩, ⟨100, 99, -1, 90⟩,
   ⟨99, 101, 3, 100⟩, ⟨101, 105, 4, 150⟩]

def c8RuleInput : StockInput := { hist := some c8RuleBars, flow := some [5, 5, 5] }

/-- C8 counterexample: a candidate evaluation that raises internally and a
candidate rejected by the trend rule produce the very same observable
outcome `none`, so a fault is not counted under any dedicated
internal-error reason separate from rule-based rejections — the code
returns a bare `None` in both cases and counts nothing. -/
theorem C8_counterexample :
    c8FaultInput.shapeFault = true
    ∧ check_stock_criteria "600000" "demo" 0 c8FaultInput = none
    ∧ check_stock_criteria "600000" "demo" 0 c8RuleInput = none
    ∧ check_stock_criteria "600000" "demo" 0 c8FaultInput
        = check_stock_criteria "600000" "demo" 0 c8RuleInput := by
  refine ⟨rfl, ?_, ?_, ?_⟩
  · unfold check_stock_criteria check_stock_criteria_v
    norm_num [c8FaultInput, c8FaultBars]
    rfl
  · unfold check_stock_criteria check_stock_criteria_v
    norm_num [c8RuleInput, c8RuleBars, last3Of, tailN]
    rfl
  · unfold check_stock_criteria check_stock_criteria_v
    norm_num [c8FaultInput, c8FaultBars, c8RuleInput, c8RuleBars, last3Of, tailN]
    rfl

theorem C8_amended_fault_swallowed_witness :
    check_stock_criteria "600000" "demo" 0 c8FaultInput = none := by
  exact C8_amended_fault_swallowed "600000" "demo" 0 c8FaultInput rfl

/-! ## Funnel accounting and pool-order preservation -/

theorem length_filterMap_add_countP {α β : Type} (f : α → Option β) (l : List α) :
    (l.filterMap f).length + l.countP (fun a => (f a).isNone) = l.length := by
  induction l with
  | nil => simp
  | cons x t ih =>
    cases hf : f x <;> simp [List.filterMap_cons, hf, List.countP_cons] <;> omega

theorem length_filterMap_eq_countP {α β : Type} (f : α → Option β) (l : List α) :
    (l.filterMap f).length = l.countP (fun a => (f a).isSome) := by
  induction l with
  | nil => simp
  | cons x t ih =>
    cases hf : f x <;> simp [List.filterMap_cons, hf, List.countP_cons, ih]

theorem countP_reason_partition {α : Type} (g : α → Option RejectReason) (l : List α) :
    l.countP (fun a => (g a).isNone)
      + ∑ e : RejectReason, l.countP (fun a => decide (g a = some e)) = l.length := by
  induction l with
  | nil => simp
  | cons x t ih =>
    simp only [List.countP_cons, Finset.sum_add_distrib, List.length_cons]
    have hone : (if ((g x).isNone : Bool) then 1 else 0)
        + ∑ e : RejectReason, (if (decide (g x = some e) : Bool) then 1 else 0) = 1 := by
      cases hg : g x with
      | none => simp
      | some r =>
        simp only [hg, Option.isNone_some, Bool.false_eq_true, if_false,
          decide_eq_true_eq, Option.some.injEq, Nat.zero_add]
        rw [Finset.sum_ite_eq]
        simp
    omega

theorem scanRow_isSome_eq (r : MergedRow) : (scanRow r).isSome = (reasonRow r).isNone := by
  unfold scanRow reasonRow check_reason check_stock_criteria
  cases hv : check_stock_criteria_v r.code r.name (ddeOf r) r.deep <;>
    simp [hv, Except.toOption]

/-- C1 (amended): each candidate of the deep-scan list yields exactly one
outcome — a result dict or the undifferentiated `None` — so the accepted
count plus the rejected count equals the number of candidates entered; and
classifying each rejection by the return site that produced it (ghost
instrumentation `reasonRow`, not data the code records), the accepted count
plus the per-reason tallies still partition the total.  The program itself
keeps no reason codes and no tally: its only output is the accepted list. -/
theorem C1_amended_accounting (rows : List MergedRow) :
    (run_strict_selection rows).length
      + (checkListOf rows).countP (fun r => (scanRow r).isNone) = (checkListOf rows).length
    ∧ (checkListOf rows).countP (fun r => (reasonRow r).isNone)
      + ∑ e : RejectReason,
          (checkListOf rows).countP (fun r => decide (reasonRow r = some e))
      = (checkListOf rows).length
    ∧ (run_strict_selection rows).length
      = (checkListOf rows).countP (fun r => (reasonRow r).isNone) := by
  refine ⟨length_filterMap_add_countP scanRow (checkListOf rows),
    countP_reason_partition reasonRow _, ?_⟩
  rw [run_strict_selection, length_filterMap_eq_countP]
  apply List.countP_congr
  intro a _
  rw [scanRow_isSome_eq a]

/-- C10: the deep scan walks the check list in order and only ever appends
hits, so the accepted results appear in ascending order of the pool row's
total market capitalization (the sort key of main.py line 167); and
forgetting the instrumentation gives back exactly `run_strict_selection`'s
output list. -/
theorem C10_ascending_market_cap (rows : List MergedRow) :
    (strictSelectionPairs rows).Pairwise (fun a b => a.2 ≤ b.2)
    ∧ (strictSelectionPairs rows).map Prod.fst = run_strict_selection rows := by
  constructor
  · have htrans : ∀ a b c : MergedRow, decide (a.totCap ≤ b.totCap) = true →
        decide (b.totCap ≤ c.totCap) = true → decide (a.totCap ≤ c.totCap) = true := by
      intro a b c h1 h2
      simp only [decide_eq_true_eq] at h1 h2 ⊢
      exact le_trans h1 h2
    have htotal : ∀ a b : MergedRow,
        (decide (a.totCap ≤ b.totCap) || decide (b.totCap ≤ a.totCap)) = true := by
      intro a b
      simpa using le_total a.totCap b.totCap
    have hs : (sortByTotCap (poolOf rows)).Pairwise
        (fun a b => decide (a.totCap ≤ b.totCap) = true) := by
      rw [sortByTotCap]
      exact List.sorted_mergeSort htrans htotal (poolOf rows)
    have hs' : (sortByTotCap (poolOf rows)).Pairwise (fun a b => a.totCap ≤ b.totCap) :=
      hs.imp (by intro a b h; exact decide_eq_true_eq.mp h)
    have htake : (checkListOf rows).Pairwise (fun a b => a.totCap ≤ b.totCap) :=
      List.Pairwise.sublist (List.take_sublist 60 _) hs'
    rw [strictSelectionPairs]
    rw [List.pairwise_filterMap]
    refine htake.imp ?_
    intro a b hab x hx y hy
    obtain ⟨p, hp, hxp⟩ := Option.mem_map.mp hx
    obtain ⟨q, hq, hyq⟩ := Option.mem_map.mp hy
    rw [← hxp, ← hyq]
    exact hab
  · rw [strictSelectionPairs, run_strict_selection, List.map_filterMap]
    have hfun : (fun r : MergedRow =>
        Option.map Prod.fst ((scanRow r).map fun p => (p, r.totCap))) = scanRow := by
      funext r
      cases scanRow r <;> rfl
    rw [hfun]

/-! ## Novelty detection and history store theorems -/

/-- C5: a sector name appearing in today's top list is classified new
(appears in `new_concepts`) exactly when no history entry whose date lies
strictly inside the 5-day retention window — entries for the current date
being excluded from the comparison set — contains it. -/
theorem C5_novelty (history : List (String × List String)) (cutoff today : String)
    (top : List (String × ℚ)) (n : String) (hn : n ∈ top.map Prod.fst) :
    n ∈ new_concepts top (past_set history cutoff today) ↔
      ¬ ∃ e ∈ history, strLtB cutoff e.1 = true ∧ e.1 ≠ today ∧ n ∈ e.2 := by
  have hpast : (n ∈ past_set history cutoff today) ↔
      ∃ e ∈ history, strLtB cutoff e.1 = true ∧ e.1 ≠ today ∧ n ∈ e.2 := by
    simp only [past_set, List.mem_flatMap, List.mem_filter, Bool.and_eq_true, bne_iff_ne,
      ne_eq]
    constructor
    · rintro ⟨e, ⟨he, hw, ht⟩, hm⟩
      exact ⟨e, he, hw, ht, hm⟩
    · rintro ⟨e, he, hw, ht, hm⟩
      exact ⟨e, ⟨he, hw, ht⟩, hm⟩
  have hmem : n ∈ new_concepts top (past_set history cutoff today) ↔
      (n ∈ top.map Prod.fst) ∧ n ∉ past_set history cutoff today := by
    simp only [new_concepts, List.mem_filterMap]
    constructor
    · rintro ⟨a, ha, hite⟩
      by_cases hc : a.1 ∈ past_set history cutoff today
      · rw [if_pos hc] at hite
        cases hite
      · rw [if_neg hc] at hite
        have : a.1 = n := by simpa using hite
        subst this
        exact ⟨List.mem_map.mpr ⟨a, ha, rfl⟩, hc⟩
    · rintro ⟨hmemtop, hnot⟩
      obtain ⟨a, ha, haeq⟩ := List.mem_map.mp hmemtop
      refine ⟨a, ha, ?_⟩
      rw [if_neg (by rw [haeq]; exact hnot)]
      rw [haeq]
  rw [hmem, hpast]
  simp [hn]

/-- History with one out-of-window entry and one entry for today. -/
def demoHistory : List (String × List String) :=
  [("2026-10-01", ["AI"]), ("2026-10-12", ["Chips"])]

def demoTop : List (String × ℚ) := [("AI", 5), ("Chips", 3)]

theorem C5_novelty_witness :
    "AI" ∈ new_concepts demoTop (past_set demoHistory "2026-10-07" "2026-10-12") := by
  exact (C5_novelty demoHistory "2026-10-07" "2026-10-12" demoTop "AI" (by decide)).mpr
    (by decide)

theorem lookup_map_replace (h : List (String × List String)) (k d : String)
    (v : List String) (hd : d ≠ k) :
    (h.map fun e => if e.1 == k then (k, v) else e).lookup d = h.lookup d := by
  induction h with
  | nil => rfl
  | cons e t ih =>
    obtain ⟨ek, ev⟩ := e
    simp only [List.map_cons]
    by_cases he : ek = k
    · rw [if_pos (by simp [he])]
      have hdk : (d == k) = false := beq_eq_false_iff_ne.mpr hd
      have hdek : (d == ek) = false := beq_eq_false_iff_ne.mpr (by rw [he]; exact hd)
      simp only [List.lookup_cons, hdk, hdek]
      simpa using ih
    · rw [if_neg (by simp [he])]
      by_cases hde : d = ek
      · subst hde
        simp [List.lookup_cons]
      · have hke : (d == ek) = false := beq_eq_false_iff_ne.mpr hde
        simp only [List.lookup_cons, hke]
        simpa using ih

theorem lookup_dict_set_self (h : List (String × List String)) (k : String)
    (v : List String) :
    (dict_set h k v).lookup k = some v := by
  unfold dict_set
  by_cases hany : (h.any fun e => e.1 == k) = true
  · rw [if_pos hany]
    induction h with
    | nil => simp at hany
    | cons e t ih =>
      obtain ⟨ek, ev⟩ := e
      simp only [List.map_cons]
      by_cases he : ek = k
      · rw [if_pos (by simp [he])]
        simp [List.lookup_cons]
      · rw [if_neg (by simp [he])]
        have hke : (k == ek) = false := beq_eq_false_iff_ne.mpr (Ne.symm he)
        simp only [List.any_cons] at hany
        have hany2 : (t.any fun e => e.1 == k) = true := by
          rcases Bool.or_eq_true_iff.mp hany with h1 | h1
          · exact absurd (by simpa using h1) he
          · exact h1
        simp only [List.lookup_cons, hke]
        simpa using ih hany2
  · rw [if_neg hany]
    induction h with
    | nil => simp [List.lookup_cons]
    | cons e t ih =>
      obtain ⟨ek, ev⟩ := e
      simp only [List.any_cons, Bool.or_eq_true, not_or] at hany
      have hke : (k == ek) = false := by
        have hne : ek ≠ k := by simpa using hany.1
        exact beq_eq_false_iff_ne.mpr (Ne.symm hne)
      simp only [List.cons_append]
      simp only [List.lookup_cons, hke]
      simpa using ih hany.2

theorem lookup_dict_set_other (h : List (String × List String)) (k d : String)
    (v : List String) (hd : d ≠ k) :
    (dict_set h k v).lookup d = h.lookup d := by
  unfold dict_set
  by_cases hany : (h.any fun e => e.1 == k) = true
  · rw [if_pos hany]
    exact lookup_map_replace h k d v hd
  · rw [if_neg hany]
    induction h with
    | nil =>
      simp [List.lookup_cons, beq_eq_false_iff_ne.mpr hd]
    | cons e t ih =>
      obtain ⟨ek, ev⟩ := e
      simp only [List.any_cons, Bool.or_eq_true, not_or] at hany
      simp only [List.cons_append]
      by_cases hde : d = ek
      · subst hde
        simp [List.lookup_cons]
      · have hke : (d == ek) = false := beq_eq_false_iff_ne.mpr hde
        simp only [List.lookup_cons, hke]
        simpa using ih hany.2

/-- C9: the history store writes an entry for the current date only when
the day's top-sector list is non-empty (an empty list leaves the mapping
untouched), the write overwrites any existing entry for that date, entries
for all other dates are unchanged, and if the loaded history has no entry
with an empty sector list then neither does the saved history. -/
theorem C9_history_store (h : List (String × List String)) (today : String)
    (tops : List (String × ℚ)) :
    (tops ≠ [] → (save_history h today tops).lookup today = some (tops.map Prod.fst))
    ∧ (tops = [] → save_history h today tops = h)
    ∧ (∀ d, d ≠ today → (save_history h today tops).lookup d = h.lookup d)
    ∧ ((∀ e ∈ h, e.2 ≠ []) → ∀ e ∈ save_history h today tops, e.2 ≠ []) := by
  refine ⟨?_, ?_, ?_, ?_⟩
  · intro hne
    rw [save_history, if_neg (by simpa using hne)]
    exact lookup_dict_set_self h today (tops.map Prod.fst)
  · intro he
    rw [save_history, if_pos (by simpa using he)]
  · intro d hd
    by_cases hne : tops = []
    · rw [save_history, if_pos (by simpa using hne)]
    · rw [save_history, if_neg (by simpa using hne)]
      exact lookup_dict_set_other h today d (tops.map Prod.fst) hd
  · intro hinv e he
    by_cases hne : tops = []
    · rw [save_history, if_pos (by simpa using hne)] at he
      exact hinv e he
    · rw [save_history, if_neg (by simpa using hne)] at he
      unfold dict_set at he
      have hmapne : tops.map Prod.fst ≠ [] := by
        simpa using hne
      by_cases hany : (h.any fun x => x.1 == today) = true
      · rw [if_pos hany] at he
        obtain ⟨x, hx, hxe⟩ := List.mem_map.mp he
        by_cases hxk : x.1 = today
        · rw [if_pos (by simpa using hxk)] at hxe
          rw [← hxe]
          exact hmapne
        · rw [if_neg (by simpa using hxk)] at hxe
          rw [← hxe]
          exact hinv x hx
      · rw [if_neg hany] at he
        rcases List.mem_append.mp he with hmem | hmem
        · exact hinv e hmem
        · have : e = (today, tops.map Prod.fst) := by simpa using hmem
          rw [this]
          exact hmapne

def demoSaved : List (String × List String) := [("2026-10-11", ["AI"])]

theorem C9_history_store_witness :
    (save_history demoSaved "2026-10-12" [("Chips", (2:ℚ))]).lookup "2026-10-12"
        = some ["Chips"]
    ∧ (save_history demoSaved "2026-10-12" [("Chips", (2:ℚ))]).lookup "2026-10-11"
        = demoSaved.lookup "2026-10-11"
    ∧ (∀ e ∈ save_history demoSaved "2026-10-12" [("Chips", (2:ℚ))], e.2 ≠ []) := by
  refine ⟨?_, ?_, ?_⟩
  · exact (C9_history_store demoSaved "2026-10-12" [("Chips", 2)]).1 (by decide)
  · exact (C9_history_store demoSaved "2026-10-12" [("Chips", 2)]).2.2.1 "2026-10-11"
      (by decide)
  · exact (C9_history_store demoSaved "2026-10-12" [("Chips", 2)]).2.2.2
      (by decide)

/-- Trend-gate rejection: red candle three sessions ago. -/
def c1TrendBars : List Bar :=
  [⟨100, 100, 1, 100⟩, ⟨100, 100, 1, 100⟩, ⟨100, 99, -1, 90⟩,
   ⟨99, 101, 3, 100⟩, ⟨101, 105, 4, 150⟩]

def c1TrendInput : StockInput := { hist := some c1TrendBars, flow := some [5, 5, 5] }

/-- Magnitude-gate rejection: three up-sessions totalling 4 + 4 + 5 = 13. -/
def c1MagBars : List Bar :=
  [⟨100, 100, 1, 100⟩, ⟨100, 100, 1, 100⟩, ⟨97, 100, 4, 90⟩,
   ⟨100, 104, 4, 100⟩, ⟨104, 109, 5, 150⟩]

def c1MagInput : StockInput := { hist := some c1MagBars, flow := some [5, 5, 5] }

/-- C1 counterexample: two candidates rejected by different gates (trend
versus magnitude, as the instrumented `check_reason` shows) produce the
very same observable result `None`, so a candidate does not receive a
reason code, and the engine's output — the bare accepted list of
`run_strict_selection` — carries no rejection tally from which the claimed
per-reason counts could be read off. -/
theorem C1_counterexample :
    check_reason "600000" "demo" 0 c1TrendInput = some RejectReason.notThreeUp
    ∧ check_reason "600001" "demo2" 0 c1MagInput = some RejectReason.riseTooLarge
    ∧ check_stock_criteria "600000" "demo" 0 c1TrendInput = none
    ∧ check_stock_criteria "600001" "demo2" 0 c1MagInput = none
    ∧ check_stock_criteria "600000" "demo" 0 c1TrendInput
        = check_stock_criteria "600001" "demo2" 0 c1MagInput := by
  refine ⟨?_, ?_, ?_, ?_, ?_⟩
  · unfold check_reason check_stock_criteria_v
    norm_num [c1TrendInput, c1TrendBars, last3Of, tailN]
  · unfold check_reason check_stock_criteria_v
    norm_num [c1MagInput, c1MagBars, last3Of, tailN, cumRiseOf]
  · unfold check_stock_criteria check_stock_criteria_v
    norm_num [c1TrendInput, c1TrendBars, last3Of, tailN]
    rfl
  · unfold check_stock_criteria check_stock_criteria_v
    norm_num [c1MagInput, c1MagBars, last3Of, tailN, cumRiseOf]
    rfl
  · unfold check_stock_criteria check_stock_criteria_v
    norm_num [c1TrendInput, c1TrendBars, c1MagInput, c1MagBars, last3Of, tailN, cumRiseOf]
    rfl
